import Mathlib

/-!
Shallow embedding of the SyncWatch Session & Synchronization Engine.

Translated from:
  - src/backend/src/types/index.ts               (data model)
  - src/backend/src/utils/errors.ts              (error taxonomy)
  - src/backend/src/services/repositories/SessionRepository.ts
  - src/backend/src/services/SessionService.ts   (Session Lifecycle Manager)
  - src/unnamed/part_004, VideoSyncService       (Synchronization Engine)
  - src/backend/src/websocket/WebSocketManager.ts (Connection Hub)

Numbers in the source are JavaScript numbers; they are modelled as rationals
(no floating-point rounding is relevant to any statement here).  The
database-plus-cache state store is modelled as an association list from
session id to session record; cache and database never diverge in the
single-threaded model, and database failures are out of scope except for
primary-key collisions on insert.
-/

namespace SyncWatch

/-- Session status, from src/backend/src/types/index.ts
(`'WAITING' | 'ACTIVE' | 'ENDED'`). -/
inductive SessionStatus where
  | WAITING
  | ACTIVE
  | ENDED
deriving DecidableEq, Repr

/-- Shared playback state, from src/backend/src/types/index.ts `VideoState`. -/
structure VideoState where
  currentTime : ℚ
  isPlaying : Bool
  duration : ℚ
  url : String
  lastUpdated : ℚ
deriving DecidableEq, Repr

/-- Payload of a backend `VideoEvent` (`data` field in types/index.ts; the
WebSocketManager also attaches a `duration` field, which the engine ignores). -/
structure VideoEventData where
  currentTime : ℚ
  url : Option String := none
  isPlaying : Option Bool := none
  duration : Option ℚ := none
deriving DecidableEq, Repr

/-- A backend video event, from src/backend/src/types/index.ts `VideoEvent`.
The `type` field is kept as a raw string because the engine dispatches on the
string at run time and has an explicit default branch for unknown values. -/
structure VideoEvent where
  type : String
  sessionId : String
  userId : String
  data : VideoEventData
  timestamp : ℚ
deriving DecidableEq, Repr

/-- Error taxonomy, from src/backend/src/utils/errors.ts.  Each constructor
keeps the arguments the corresponding class constructor receives. -/
inductive BaseError where
  | ValidationError (message : String) (field : String)
  | SessionNotFoundError (sessionId : String)
  | SyncFailedError (sessionId : String) (reason : String)
  | DatabaseError (message : String)
deriving DecidableEq, Repr

/-- The TS `Result<T, BaseError>` discriminated union (src/backend/src/utils/result.ts). -/
inductive Result (α : Type) where
  | ok (data : α)
  | err (error : BaseError)
deriving DecidableEq, Repr

/-- JavaScript `String.prototype.trim()`: strip whitespace from both ends
(model of the `.trim()` calls in SessionService). -/
def jsTrim (s : String) : String :=
  ⟨((s.data.dropWhile Char.isWhitespace).reverse.dropWhile Char.isWhitespace).reverse⟩

/-- JavaScript `a || b` on an optional string: `undefined` and the empty
string are falsy. -/
def jsOrString (a : Option String) (b : String) : String :=
  match a with
  | none => b
  | some s => if s = "" then b else s

/-- JavaScript `a || b` on an optional number: `undefined` and `0` are falsy. -/
def jsOrNum (a : Option ℚ) (b : ℚ) : ℚ :=
  match a with
  | none => b
  | some x => if x = 0 then b else x

/-- The zeroed default VideoState used by `VideoSyncService.applyVideoEvent`
when the session has no stored state yet. -/
def defaultVideoState : VideoState :=
  { currentTime := 0, isPlaying := false, duration := 0, url := "", lastUpdated := 0 }

/-- VideoSyncService.applyVideoEvent (src/unnamed/part_004, lines 250-304).
Dispatches on the event-type string; the default branch returns the base
state unchanged.  `event.data.url || baseState.url` is JS truthiness. -/
def applyVideoEvent (currentState : Option VideoState) (event : VideoEvent) : VideoState :=
  let baseState := currentState.getD defaultVideoState
  if event.type = "PLAY" then
    { baseState with
        currentTime := event.data.currentTime
        isPlaying := true
        lastUpdated := event.timestamp }
  else if event.type = "PAUSE" then
    { baseState with
        currentTime := event.data.currentTime
        isPlaying := false
        lastUpdated := event.timestamp }
  else if event.type = "SEEK" then
    { baseState with
        currentTime := event.data.currentTime
        lastUpdated := event.timestamp }
  else if event.type = "LOAD" then
    { baseState with
        url := jsOrString event.data.url baseState.url
        currentTime := 0
        isPlaying := false
        lastUpdated := event.timestamp }
  else if event.type = "ENDED" then
    { baseState with
        currentTime := baseState.duration
        isPlaying := false
        lastUpdated := event.timestamp }
  else
    baseState

/-- VideoSyncService.validateVideoSync (src/unnamed/part_004, lines 160-203).
URL mismatch is a conflict; a duration mismatch beyond 5 seconds when both
durations are known and non-zero is a conflict; excessive `currentTime`
drift is only logged (the `return false` in that branch is commented out in
the source). -/
def validateVideoSync (currentState newState : VideoState) : Bool :=
  if currentState.url ≠ newState.url then
    false
  else if currentState.duration > 0 ∧ newState.duration > 0 ∧
      |newState.duration - currentState.duration| > 5 then
    false
  else
    true

/-- VideoSyncService.isValidVideoState (src/unnamed/part_004, lines 306-334).
The `typeof` checks of the source are guaranteed by the embedding's types;
the numeric range checks are kept verbatim. -/
def isValidVideoState (videoState : VideoState) : Bool :=
  if videoState.currentTime < 0 then false
  else if videoState.duration < 0 then false
  else if videoState.lastUpdated ≤ 0 then false
  else if videoState.duration > 0 ∧ videoState.currentTime > videoState.duration then false
  else true

/-- A session record, from src/backend/src/types/index.ts `SessionData`. -/
structure SessionData where
  id : String
  userId : String
  status : SessionStatus
  participants : List String
  videoUrl : Option String
  videoState : Option VideoState
  createdAt : ℚ
  updatedAt : ℚ
deriving DecidableEq, Repr

/-- The state store: one record per session keyed by session id (the
`sessions` table of SessionRepository together with its write-through cache). -/
abbrev Store : Type := List (String × SessionData)

/-- SessionRepository.findById: lookup by primary key (first matching row). -/
def findById (st : Store) (id : String) : Option SessionData :=
  match st with
  | [] => none
  | (k, s) :: rest => if k = id then some s else findById rest id

/-- Replace the record stored under `id` (SQL `UPDATE ... WHERE id = $n`,
including the cache refresh). -/
def storeSet (st : Store) (id : String) (s : SessionData) : Store :=
  match st with
  | [] => []
  | (k, s₀) :: rest => if k = id then (k, s) :: rest else (k, s₀) :: storeSet rest id s

/-- The subset of SessionData fields a SessionRepository.update call may
carry (the TS call sites pass object literals with some of these fields;
an absent field is left unchanged by the dynamic UPDATE query). -/
structure SessionUpdate where
  status : Option SessionStatus := none
  participants : Option (List String) := none
  videoUrl : Option String := none
  videoState : Option (Option VideoState) := none
deriving DecidableEq, Repr

/-- The repository's row materialization of the url column,
`row.video_url || undefined` (SessionRepository.ts, line 161 and the other
row mappers): a NULL or empty stored url surfaces as `undefined`. -/
def rowUrlOrUndefined (url : String) : Option String :=
  if url = "" then none else some url

/-- Effect of SessionRepository.update's dynamic SET clause on one row
(src/backend/src/services/repositories/SessionRepository.ts, lines 104-171):
each present field overwrites the column, and `updated_at` is set to the
repository's current time.  The written url column is surfaced through the
`row.video_url || undefined` mapping that every returned and cached row
passes through. -/
def applyUpdate (s : SessionData) (u : SessionUpdate) (now : ℚ) : SessionData :=
  { s with
      status := u.status.getD s.status
      participants := u.participants.getD s.participants
      videoUrl := match u.videoUrl with | none => s.videoUrl | some url => rowUrlOrUndefined url
      videoState := u.videoState.getD s.videoState
      updatedAt := now }

/-- SessionRepository.update: row absent gives SessionNotFoundError, else
the updated row is written back and returned. -/
def repoUpdate (st : Store) (id : String) (u : SessionUpdate) (now : ℚ) :
    Result (Store × SessionData) :=
  match findById st id with
  | none => .err (.SessionNotFoundError id)
  | some s =>
      let s' := applyUpdate s u now
      .ok (storeSet st id s', s')

/-- SessionRepository.create: INSERT of a fresh row; a primary-key collision
is a database failure. -/
def repoCreate (st : Store) (s : SessionData) : Result (Store × SessionData) :=
  match findById st s.id with
  | some _ => .err (.DatabaseError "duplicate session id")
  | none => .ok ((s.id, s) :: st, s)

/-- Helper for `jsSetDedup`: walk the list keeping the first occurrence of
each element not seen yet. -/
def jsSetDedupAux (seen : List String) : List String → List String
  | [] => []
  | x :: xs => if x ∈ seen then jsSetDedupAux seen xs else x :: jsSetDedupAux (x :: seen) xs

/-- JavaScript `[...new Set(l)]`: deduplicate keeping the first occurrence
of each element, preserving insertion order. -/
def jsSetDedup (l : List String) : List String :=
  jsSetDedupAux [] l

/-- SessionRepository.addParticipant (lines 218-233): read the session, add
the user via `[...new Set([...participants, userId])]`, write back. -/
def addParticipant (st : Store) (sessionId userId : String) (now : ℚ) :
    Result (Store × SessionData) :=
  match findById st sessionId with
  | none => .err (.SessionNotFoundError sessionId)
  | some s =>
      repoUpdate st sessionId { participants := some (jsSetDedup (s.participants ++ [userId])) } now

/-- SessionRepository.removeParticipant (lines 235-250): read the session,
filter the user out, write back. -/
def removeParticipant (st : Store) (sessionId userId : String) (now : ℚ) :
    Result (Store × SessionData) :=
  match findById st sessionId with
  | none => .err (.SessionNotFoundError sessionId)
  | some s =>
      repoUpdate st sessionId { participants := some (s.participants.filter (fun p => p ≠ userId)) } now

/-- SessionService.createSession (src/backend/src/services/SessionService.ts,
lines 21-63).  `newId` stands for the uuid the repository draws; `now` for the
repository's clock.  An empty or whitespace-only user id is rejected. -/
def createSession (st : Store) (userId : String) (newId : String) (now : ℚ) :
    Result (Store × String) :=
  if jsTrim userId = "" then
    .err (.ValidationError "User ID is required" "userId")
  else
    match repoCreate st
        { id := newId, userId := jsTrim userId, status := .WAITING,
          participants := [jsTrim userId], videoUrl := none, videoState := none,
          createdAt := now, updatedAt := now } with
    | .err e => .err e
    | .ok (st', s) => .ok (st', s.id)

/-- SessionService.joinSession (lines 65-127): validate, check existence,
add the participant, and activate the session when it was WAITING and now
has more than one participant. -/
def joinSession (st : Store) (sessionId userId : String) (now : ℚ) :
    Result (Store × SessionData) :=
  if sessionId = "" ∨ userId = "" then
    .err (.ValidationError "Session ID and User ID are required" "sessionId,userId")
  else
    match findById st sessionId with
    | none => .err (.SessionNotFoundError sessionId)
    | some _ =>
        match addParticipant st sessionId userId now with
        | .err e => .err e
        | .ok (st₁, s₁) =>
            if s₁.status = .WAITING ∧ s₁.participants.length > 1 then
              repoUpdate st₁ sessionId { status := some .ACTIVE } now
            else
              .ok (st₁, s₁)

/-- SessionService.leaveSession (lines 129-165): remove the participant and
end the session when nobody is left. -/
def leaveSession (st : Store) (sessionId userId : String) (now : ℚ) :
    Result (Store × SessionData) :=
  if sessionId = "" ∨ userId = "" then
    .err (.ValidationError "Session ID and User ID are required" "sessionId,userId")
  else
    match removeParticipant st sessionId userId now with
    | .err e => .err e
    | .ok (st₁, s₁) =>
        if s₁.participants.length = 0 then
          repoUpdate st₁ sessionId { status := some .ENDED } now
        else
          .ok (st₁, s₁)

/-- SessionService.getSession (lines 167-184). -/
def getSession (st : Store) (sessionId : String) : Result SessionData :=
  if sessionId = "" then
    .err (.ValidationError "Session ID is required" "sessionId")
  else
    match findById st sessionId with
    | none => .err (.SessionNotFoundError sessionId)
    | some s => .ok s

/-- SessionService.updateVideoState (lines 186-213): stamps `lastUpdated`
with the service's current time and persists the state. -/
def updateVideoState (st : Store) (sessionId : String) (videoState : Option VideoState)
    (now : ℚ) : Result (Store × SessionData) :=
  if sessionId = "" then
    .err (.ValidationError "Session ID is required" "sessionId")
  else
    match videoState with
    | none => .err (.ValidationError "Video state is required" "videoState")
    | some vs =>
        repoUpdate st sessionId
          { videoState := some (some { vs with lastUpdated := now }) } now

/-- SessionService.setVideoUrl (lines 215-236): trims the url, stores it and
forces the status to ACTIVE.  The stored videoState is not touched. -/
def setVideoUrl (st : Store) (sessionId url : String) (now : ℚ) :
    Result (Store × SessionData) :=
  if sessionId = "" ∨ url = "" then
    .err (.ValidationError "Session ID and URL are required" "sessionId,url")
  else
    repoUpdate st sessionId { videoUrl := some (jsTrim url), status := some .ACTIVE } now

/-- SessionService.endSession (lines 238-258): forces status to ENDED. -/
def endSession (st : Store) (sessionId : String) (now : ℚ) :
    Result (Store × Bool) :=
  if sessionId = "" then
    .err (.ValidationError "Session ID is required" "sessionId")
  else
    match repoUpdate st sessionId { status := some .ENDED } now with
    | .err e => .err e
    | .ok (st', _) => .ok (st', true)

/-- VideoSyncService.syncVideoState (src/unnamed/part_004, lines 23-89).
`nowSync` is the Date.now() drawn inside syncVideoState, `nowUpdate` the one
drawn inside SessionService.updateVideoState; the second overwrite wins.
The missing-argument guards of the source are modelled by the empty string
and by `none`. -/
def syncVideoState (st : Store) (sessionId : String) (videoState : Option VideoState)
    (nowSync nowUpdate : ℚ) : Result (Store × Bool) :=
  if sessionId = "" then
    .err (.ValidationError "Session ID is required" "sessionId")
  else
    match videoState with
    | none => .err (.ValidationError "Video state is required" "videoState")
    | some vs =>
        match getSession st sessionId with
        | .err e => .err e
        | .ok session =>
            if session.status ≠ .ACTIVE then
              .err (.SyncFailedError sessionId "Session is not active")
            else if ¬ isValidVideoState vs then
              .err (.ValidationError "Invalid video state" "videoState")
            else
              match updateVideoState st sessionId
                  (some { vs with lastUpdated := nowSync }) nowUpdate with
              | .err _ => .err (.SyncFailedError sessionId "Failed to update video state")
              | .ok (st', _) => .ok (st', true)

/-- VideoSyncService.handleVideoEvent (src/unnamed/part_004, lines 91-158).
The validateVideoSync check of the source only logs on failure and never
changes the outcome; it is therefore absent here. -/
def handleVideoEvent (st : Store) (sessionId : String) (event : Option VideoEvent)
    (userId : String) (nowSync nowUpdate : ℚ) : Result (Store × VideoState) :=
  if sessionId = "" ∨ event = none ∨ userId = "" then
    .err (.ValidationError "Session ID, event, and user ID are required" "sessionId,event,userId")
  else
    match event with
    | none => .err (.ValidationError "Session ID, event, and user ID are required" "sessionId,event,userId")
    | some ev =>
        match getSession st sessionId with
        | .err e => .err e
        | .ok session =>
            let newVideoState := applyVideoEvent session.videoState ev
            match syncVideoState st sessionId (some newVideoState) nowSync nowUpdate with
            | .err e => .err e
            | .ok (st', _) => .ok (st', newVideoState)

/-- The reducer of VideoSyncService.resolveConflict: keep the state with the
strictly greater `lastUpdated`. -/
def laterOf (latest current : VideoState) : VideoState :=
  if current.lastUpdated > latest.lastUpdated then current else latest

/-- JavaScript `array.reduce(f)` on a non-empty array: left fold of the tail
over the head. -/
def mostRecent (head : VideoState) (rest : List VideoState) : VideoState :=
  rest.foldl laterOf head

/-- VideoSyncService.resolveConflict (src/unnamed/part_004, lines 205-247):
empty candidate list is a ValidationError; otherwise the last-writer-wins
candidate is persisted through syncVideoState and returned. -/
def resolveConflict (st : Store) (sessionId : String) (conflictingStates : List VideoState)
    (nowSync nowUpdate : ℚ) : Result (Store × VideoState) :=
  match conflictingStates with
  | [] => .err (.ValidationError "Conflicting states are required" "conflictingStates")
  | head :: rest =>
      let mostRecentState := mostRecent head rest
      match syncVideoState st sessionId (some mostRecentState) nowSync nowUpdate with
      | .err e => .err e
      | .ok (st', _) => .ok (st', mostRecentState)

/-- The `errorCode` of each error class (src/backend/src/utils/errors.ts). -/
def errCode : BaseError → String
  | .ValidationError _ _ => "VALIDATION_ERROR"
  | .SessionNotFoundError _ => "SESSION_NOT_FOUND"
  | .SyncFailedError _ _ => "SYNC_FAILED"
  | .DatabaseError _ => "DATABASE_ERROR"

/-- The `message` of each error class (src/backend/src/utils/errors.ts). -/
def errMessage : BaseError → String
  | .ValidationError m _ => m
  | .SessionNotFoundError sid => "Session not found: " ++ sid
  | .SyncFailedError sid _ => "Video sync failed for session: " ++ sid
  | .DatabaseError m => m

/-- An inbound `video-event` payload as the WebSocketManager receives it from
a client (untyped in the source; these are the fields the handler reads and
re-broadcasts). -/
structure ClientVideoEvent where
  type : String
  currentTime : Option ℚ := none
  url : Option String := none
  duration : Option ℚ := none
  timestamp : Option ℚ := none
  isPlaying : Option Bool := none
deriving DecidableEq, Repr

/-- WebSocketManager.handleVideoEvent's event transformation (lines 299-356):
frontend format to the backend VideoEvent, with JS `||` defaults. -/
def transformEvent (sessionId userId : String) (e : ClientVideoEvent) (nowT : ℚ) :
    VideoEvent :=
  { type := e.type
    sessionId := sessionId
    userId := userId
    timestamp := jsOrNum e.timestamp nowT
    data :=
      { currentTime := jsOrNum e.currentTime 0
        isPlaying := some (e.type = "PLAY")
        url := e.url
        duration := e.duration } }

/-- A message emitted to one socket by the Hub's video-event handler. -/
inductive OutMessage where
  | sessionError (message errorCode : String)
  | videoSync (payload : ClientVideoEvent)
deriving DecidableEq, Repr

/-- WebSocketManager.handleVideoEvent (src/backend/src/websocket/WebSocketManager.ts,
lines 299-356).  `room` is the socket-io room of `sessionId` (sender included),
`sock` the originating socket id, `sockData` the handler's `socket.data`.
On engine success the handler emits `socket.to(room)`, i.e. to every room
member except the sender, and the payload is the inbound `eventData` spread
with a fresh server timestamp — not the engine's resulting VideoState.
`nowT, nowSync, nowUpdate, nowB` are the four Date.now() readings in call
order. -/
def hubHandleVideoEvent (st : Store) (room : List String) (sock : String)
    (sockData : Option (String × String)) (eventData : ClientVideoEvent)
    (nowT nowSync nowUpdate nowB : ℚ) : Store × List (String × OutMessage) :=
  match sockData with
  | none => (st, [(sock, .sessionError "Not in a session" "NOT_IN_SESSION")])
  | some (sessionId, userId) =>
      if sessionId = "" ∨ userId = "" then
        (st, [(sock, .sessionError "Not in a session" "NOT_IN_SESSION")])
      else
        let transformed := transformEvent sessionId userId eventData nowT
        match handleVideoEvent st sessionId (some transformed) userId nowSync nowUpdate with
        | .err e => (st, [(sock, .sessionError (errMessage e) (errCode e))])
        | .ok (st', _) =>
            (st', (room.filter (fun r => r ≠ sock)).map
              (fun r => (r, .videoSync { eventData with timestamp := some nowB })))

/-- One Session Lifecycle Manager operation, with the inputs it draws from
the environment (fresh uuid, clock reading). -/
inductive Op where
  | create (userId newId : String) (now : ℚ)
  | join (sessionId userId : String) (now : ℚ)
  | leave (sessionId userId : String) (now : ℚ)
  | getSess (sessionId : String)
  | setUrl (sessionId url : String) (now : ℚ)
  | updState (sessionId : String) (vs : VideoState) (now : ℚ)
  | endSess (sessionId : String) (now : ℚ)

/-- The store after one Lifecycle Manager operation; a failed operation
leaves the store unchanged. -/
def runOp (st : Store) : Op → Store
  | .create u nid now =>
      match createSession st u nid now with | .ok (st', _) => st' | .err _ => st
  | .join sid uid now =>
      match joinSession st sid uid now with | .ok (st', _) => st' | .err _ => st
  | .leave sid uid now =>
      match leaveSession st sid uid now with | .ok (st', _) => st' | .err _ => st
  | .getSess _ => st
  | .setUrl sid url now =>
      match setVideoUrl st sid url now with | .ok (st', _) => st' | .err _ => st
  | .updState sid vs now =>
      match updateVideoState st sid (some vs) now with | .ok (st', _) => st' | .err _ => st
  | .endSess sid now =>
      match endSession st sid now with | .ok (st', _) => st' | .err _ => st

/-- Stores reachable from the empty store through Lifecycle Manager
operations; a session is reachable when it lives in a reachable store. -/
inductive Reachable : Store → Prop where
  | init : Reachable []
  | step (st : Store) (op : Op) : Reachable st → Reachable (runOp st op)

/-- Status of the session an operation returned, for stating concrete runs. -/
def resultStatus : Result (Store × SessionData) → Option SessionStatus
  | .ok (_, s) => some s.status
  | .err _ => none

/-- VideoState of the session an operation returned. -/
def resultVideoState : Result (Store × SessionData) → Option (Option VideoState)
  | .ok (_, s) => some s.videoState
  | .err _ => none

/-- Url stored on the session an operation returned. -/
def resultVideoUrl : Result (Store × SessionData) → Option (Option String)
  | .ok (_, s) => some s.videoUrl
  | .err _ => none

/-- Concrete run: "alice" creates session "s1", then leaves it, ending it. -/
def stEnded : Store :=
  runOp (runOp [] (.create "alice" "s1" 1)) (.leave "s1" "alice" 2)

/-- Concrete run: two joins land on the already ENDED session "s1". -/
def stEndedJoined : Store :=
  runOp (runOp stEnded (.join "s1" "bob" 4)) (.join "s1" "carol" 5)

/-- A concrete video state on url `http://a`. -/
def vsA : VideoState :=
  { currentTime := 1, isPlaying := true, duration := 100, url := "http://a", lastUpdated := 3 }

/-- Concrete run: "alice" creates "s1", "bob" joins (activating it), the url
`http://a` is assigned, and `vsA` is stored as the session's video state. -/
def stActive : Store :=
  runOp (runOp (runOp (runOp [] (.create "alice" "s1" 1)) (.join "s1" "bob" 2))
    (.setUrl "s1" "http://a" 3)) (.updState "s1" vsA 4)

/-- Candidate state with logical timestamp 100. -/
def vs100 : VideoState :=
  { currentTime := 1, isPlaying := false, duration := 50, url := "http://a", lastUpdated := 100 }

/-- Candidate state with logical timestamp 200. -/
def vs200 : VideoState :=
  { currentTime := 2, isPlaying := true, duration := 50, url := "http://a", lastUpdated := 200 }

/-- A concrete inbound ENDED client event reporting playback position 0. -/
def cexClientEvent : ClientVideoEvent :=
  { type := "ENDED", currentTime := some 0, timestamp := some 50 }

/-- The session stored in `stEnded`. -/
def sEnded : SessionData :=
  { id := "s1", userId := "alice", status := .ENDED, participants := [],
    videoUrl := none, videoState := none, createdAt := 1, updatedAt := 2 }

/-- The session stored in `stActive`. -/
def sActive : SessionData :=
  { id := "s1", userId := "alice", status := .ACTIVE, participants := ["alice", "bob"],
    videoUrl := some "http://a", videoState := some { vsA with lastUpdated := 4 },
    createdAt := 1, updatedAt := 4 }

/-- The session produced by resolving `[vs100, vs200]` on `stActive`. -/
def sRC : SessionData :=
  { sActive with videoState := some { vs200 with lastUpdated := 8 }, updatedAt := 8 }

/-- A concrete PLAY event at playback position 5 with client timestamp 50. -/
def evPLAY5 : VideoEvent :=
  { type := "PLAY", sessionId := "s1", userId := "bob", data := { currentTime := 5 },
    timestamp := 50 }

/-- The canonical state that `evPLAY5` produces on `stActive`. -/
def vP : VideoState :=
  { currentTime := 5, isPlaying := true, duration := 100, url := "http://a", lastUpdated := 50 }

/-- The session stored after handling `evPLAY5` on `stActive`. -/
def sP : SessionData :=
  { sActive with videoState := some { vP with lastUpdated := 62 }, updatedAt := 62 }

/-- The canonical state the engine derives from `cexClientEvent` on `stActive`. -/
def vC9 : VideoState :=
  { currentTime := 100, isPlaying := false, duration := 100, url := "http://a",
    lastUpdated := 50 }

/-- The session stored after handling `cexClientEvent` on `stActive`. -/
def sC9 : SessionData :=
  { sActive with videoState := some { vC9 with lastUpdated := 62 }, updatedAt := 62 }

/-- The session produced by `setVideoUrl stActive "s1" "http://b" 5`. -/
def sB : SessionData :=
  { sActive with videoUrl := some "http://b", updatedAt := 5 }

/-- The session produced by `setVideoUrl stActive "s1" " " 5`: the
whitespace-only url trims to the empty string, whose stored column
materializes as no videoUrl. -/
def sBlank : SessionData :=
  { sActive with videoUrl := none, updatedAt := 5 }

/-- A video state on a different url than `vsA`, all other fields equal. -/
def vsB : VideoState :=
  { currentTime := 1, isPlaying := true, duration := 100, url := "http://b", lastUpdated := 3 }

/-- A concrete LOAD event carrying the url `http://u`. -/
def evLOAD : VideoEvent :=
  { type := "LOAD", sessionId := "s1", userId := "bob",
    data := { currentTime := 0, url := some "http://u" }, timestamp := 10 }

/-! Lemmas about the JS-set deduplication used by addParticipant. -/

theorem mem_jsSetDedupAux {x : String} :
    ∀ (l seen : List String), x ∈ jsSetDedupAux seen l ↔ x ∈ l ∧ x ∉ seen := by
  intro l
  induction l with
  | nil => intro seen; simp [jsSetDedupAux]
  | cons y ys ih =>
      intro seen
      simp only [jsSetDedupAux]
      by_cases hy : y ∈ seen
      · rw [if_pos hy, ih]
        constructor
        · rintro ⟨hx, hns⟩
          exact ⟨List.mem_cons_of_mem _ hx, hns⟩
        · rintro ⟨hx, hns⟩
          rcases List.mem_cons.mp hx with rfl | hx₀
          · exact absurd hy hns
          · exact ⟨hx₀, hns⟩
      · rw [if_neg hy]
        by_cases hxy : x = y
        · subst hxy
          simp [hy]
        · simp only [List.mem_cons, hxy, false_or]
          rw [ih]
          constructor
          · rintro ⟨hx, hns⟩
            exact ⟨hx, fun hsn => hns (List.mem_cons_of_mem _ hsn)⟩
          · rintro ⟨hx, hns⟩
            refine ⟨hx, ?_⟩
            intro hmem
            rcases List.mem_cons.mp hmem with h | h
            · exact hxy h
            · exact hns h

theorem mem_jsSetDedup {x : String} {l : List String} : x ∈ jsSetDedup l ↔ x ∈ l := by
  unfold jsSetDedup
  rw [mem_jsSetDedupAux]
  simp

theorem jsSetDedupAux_nodup : ∀ (l seen : List String), (jsSetDedupAux seen l).Nodup := by
  intro l
  induction l with
  | nil => intro seen; simp [jsSetDedupAux]
  | cons y ys ih =>
      intro seen
      simp only [jsSetDedupAux]
      by_cases hy : y ∈ seen
      · rw [if_pos hy]; exact ih seen
      · rw [if_neg hy]
        refine List.nodup_cons.mpr ⟨?_, ih _⟩
        intro hmem
        exact ((mem_jsSetDedupAux _ _).mp hmem).2 (List.mem_cons_self _ _)

theorem jsSetDedup_nodup (l : List String) : (jsSetDedup l).Nodup :=
  jsSetDedupAux_nodup l []

theorem jsSetDedupAux_eq_self :
    ∀ {l seen : List String}, l.Nodup → (∀ x ∈ l, x ∉ seen) → jsSetDedupAux seen l = l := by
  intro l
  induction l with
  | nil => intro seen _ _; rfl
  | cons y ys ih =>
      intro seen hn hd
      rcases List.nodup_cons.mp hn with ⟨hy, hys⟩
      simp only [jsSetDedupAux]
      rw [if_neg (hd y (List.mem_cons_self _ _))]
      congr 1
      apply ih hys
      intro x hx hmem
      rcases List.mem_cons.mp hmem with h | h
      · exact hy (h ▸ hx)
      · exact hd x (List.mem_cons_of_mem _ hx) h

theorem jsSetDedup_eq_self {l : List String} (h : l.Nodup) : jsSetDedup l = l :=
  jsSetDedupAux_eq_self h (by intro x _ hmem; cases hmem)

theorem jsSetDedupAux_append_seen :
    ∀ {l seen : List String} {x : String},
      l.Nodup → (∀ z ∈ l, z ∉ seen) → x ∈ seen → jsSetDedupAux seen (l ++ [x]) = l := by
  intro l
  induction l with
  | nil => intro seen x _ _ hx; simp [jsSetDedupAux, hx]
  | cons y ys ih =>
      intro seen x hn hd hx
      rcases List.nodup_cons.mp hn with ⟨hy, hys⟩
      simp only [List.cons_append, jsSetDedupAux]
      rw [if_neg (hd y (List.mem_cons_self _ _))]
      congr 1
      refine ih hys ?_ (List.mem_cons_of_mem _ hx)
      intro z hz hmem
      rcases List.mem_cons.mp hmem with h | h
      · exact hy (h ▸ hz)
      · exact hd z (List.mem_cons_of_mem _ hz) h

theorem jsSetDedupAux_append_mem :
    ∀ {l seen : List String} {x : String},
      l.Nodup → x ∈ l → (∀ z ∈ l, z ∉ seen) → jsSetDedupAux seen (l ++ [x]) = l := by
  intro l
  induction l with
  | nil => intro seen x _ hx _; cases hx
  | cons y ys ih =>
      intro seen x hn hx hd
      rcases List.nodup_cons.mp hn with ⟨hy, hys⟩
      simp only [List.cons_append, jsSetDedupAux]
      rw [if_neg (hd y (List.mem_cons_self _ _))]
      congr 1
      by_cases hxy : x = y
      · subst hxy
        refine jsSetDedupAux_append_seen hys ?_ (List.mem_cons_self _ _)
        intro z hz hmem
        rcases List.mem_cons.mp hmem with h | h
        · exact hy (h ▸ hz)
        · exact hd z (List.mem_cons_of_mem _ hz) h
      · have hxys : x ∈ ys := (List.mem_cons.mp hx).resolve_left hxy
        refine ih hys hxys ?_
        intro z hz hmem
        rcases List.mem_cons.mp hmem with h | h
        · exact hy (h ▸ hz)
        · exact hd z (List.mem_cons_of_mem _ hz) h

theorem jsSetDedup_append_mem {l : List String} {x : String}
    (hn : l.Nodup) (hx : x ∈ l) : jsSetDedup (l ++ [x]) = l :=
  jsSetDedupAux_append_mem hn hx (by intro z _ hmem; cases hmem)

/-! Lemmas about the association-list state store. -/

theorem findById_storeSet (st : Store) (id sid : String) (s : SessionData) :
    findById (storeSet st id s) sid =
      if id = sid ∧ (findById st id).isSome then some s else findById st sid := by
  induction st with
  | nil => simp [storeSet, findById]
  | cons kv rest ih =>
      obtain ⟨k, s₀⟩ := kv
      by_cases hk : k = id
      · subst hk
        by_cases hks : k = sid
        · subst hks
          simp [storeSet, findById]
        · simp [storeSet, findById, hks]
      · by_cases hks : k = sid
        · subst hks
          have h1 : ¬ (id = k) := fun h => hk h.symm
          simp [storeSet, findById, hk, h1]
        · simp [storeSet, findById, hk, hks, ih]

theorem repoUpdate_ok {st : Store} {id : String} {u : SessionUpdate} {now : ℚ}
    {p : Store × SessionData} (h : repoUpdate st id u now = .ok p) :
    ∃ s, findById st id = some s ∧
      p = (storeSet st id (applyUpdate s u now), applyUpdate s u now) := by
  unfold repoUpdate at h
  cases hf : findById st id with
  | none => rw [hf] at h; cases h
  | some s =>
      rw [hf] at h
      simp only [Result.ok.injEq] at h
      exact ⟨s, rfl, h.symm⟩

/-! Lemmas about the last-writer-wins reducer of resolveConflict. -/

theorem mostRecent_mem (head : VideoState) (rest : List VideoState) :
    mostRecent head rest ∈ head :: rest := by
  unfold mostRecent
  induction rest generalizing head with
  | nil => simp
  | cons c cs ih =>
      simp only [List.foldl_cons]
      rcases List.mem_cons.mp (ih (laterOf head c)) with h | h
      · rw [h]
        unfold laterOf
        split
        · exact List.mem_cons_of_mem _ (List.mem_cons_self _ _)
        · exact List.mem_cons_self _ _
      · exact List.mem_cons_of_mem _ (List.mem_cons_of_mem _ h)

theorem mostRecent_ge (head : VideoState) (rest : List VideoState) :
    ∀ w ∈ head :: rest, w.lastUpdated ≤ (mostRecent head rest).lastUpdated := by
  unfold mostRecent
  induction rest generalizing head with
  | nil => intro w hw; rcases List.mem_cons.mp hw with h | h
           · rw [h]; simp
           · cases h
  | cons c cs ih =>
      intro w hw
      simp only [List.foldl_cons]
      have hhead : head.lastUpdated ≤ (laterOf head c).lastUpdated := by
        unfold laterOf; split
        · exact le_of_lt (by assumption)
        · exact le_refl _
      have hc : c.lastUpdated ≤ (laterOf head c).lastUpdated := by
        unfold laterOf; split
        · exact le_refl _
        · exact le_of_not_lt (by assumption)
      rcases List.mem_cons.mp hw with h | h
      · rw [h]
        exact le_trans hhead (ih (laterOf head c) _ (List.mem_cons_self _ _))
      · rcases List.mem_cons.mp h with h' | h'
        · rw [h']
          exact le_trans hc (ih (laterOf head c) _ (List.mem_cons_self _ _))
        · exact ih (laterOf head c) w (List.mem_cons_of_mem _ h')

/-! How the repository's dynamic UPDATE behaves for each concrete call site. -/

theorem applyUpdate_parts (s : SessionData) (P : List String) (now : ℚ) :
    applyUpdate s { participants := some P } now =
      { s with participants := P, updatedAt := now } := rfl

theorem applyUpdate_status (s : SessionData) (stat : SessionStatus) (now : ℚ) :
    applyUpdate s { status := some stat } now =
      { s with status := stat, updatedAt := now } := rfl

theorem applyUpdate_url_status (s : SessionData) (url : String) (now : ℚ) :
    applyUpdate s { videoUrl := some url, status := some SessionStatus.ACTIVE } now =
      { s with videoUrl := rowUrlOrUndefined url, status := .ACTIVE, updatedAt := now } := rfl

theorem applyUpdate_vs (s : SessionData) (vs : Option VideoState) (now : ℚ) :
    applyUpdate s { videoState := some vs } now =
      { s with videoState := vs, updatedAt := now } := rfl

theorem addParticipant_ok {st : Store} {sid uid : String} {now : ℚ}
    {p : Store × SessionData} (h : addParticipant st sid uid now = .ok p) :
    ∃ s, findById st sid = some s ∧
      p = (storeSet st sid
             { s with participants := jsSetDedup (s.participants ++ [uid]), updatedAt := now },
           { s with participants := jsSetDedup (s.participants ++ [uid]), updatedAt := now }) := by
  unfold addParticipant at h
  cases hf : findById st sid with
  | none => rw [hf] at h; cases h
  | some s =>
      rw [hf] at h
      rcases repoUpdate_ok h with ⟨s', hs', hp⟩
      rw [hf] at hs'
      have : s = s' := Option.some.inj hs'
      subst this
      rw [applyUpdate_parts] at hp
      exact ⟨s, rfl, hp⟩

theorem removeParticipant_ok {st : Store} {sid uid : String} {now : ℚ}
    {p : Store × SessionData} (h : removeParticipant st sid uid now = .ok p) :
    ∃ s, findById st sid = some s ∧
      p = (storeSet st sid
             { s with participants := s.participants.filter (fun q => q ≠ uid), updatedAt := now },
           { s with participants := s.participants.filter (fun q => q ≠ uid), updatedAt := now }) := by
  unfold removeParticipant at h
  cases hf : findById st sid with
  | none => rw [hf] at h; cases h
  | some s =>
      rw [hf] at h
      rcases repoUpdate_ok h with ⟨s', hs', hp⟩
      rw [hf] at hs'
      have : s = s' := Option.some.inj hs'
      subst this
      rw [applyUpdate_parts] at hp
      exact ⟨s, rfl, hp⟩

/-! Inversion lemmas for the Session Lifecycle Manager operations. -/

theorem createSession_ok {st : Store} {u nid : String} {now : ℚ} {p : Store × String}
    (h : createSession st u nid now = .ok p) :
    jsTrim u ≠ "" ∧ findById st nid = none ∧
      p = ((nid,
        { id := nid, userId := jsTrim u, status := .WAITING, participants := [jsTrim u],
          videoUrl := none, videoState := none, createdAt := now, updatedAt := now }) :: st,
        nid) := by
  unfold createSession at h
  split at h
  · cases h
  · unfold repoCreate at h
    cases hf : findById st nid with
    | some s => simp only [hf] at h; cases h
    | none =>
        simp only [hf] at h
        simp only [Result.ok.injEq] at h
        refine ⟨by assumption, rfl, ?_⟩
        rw [← h]

theorem joinSession_ok {st : Store} {sid uid : String} {now : ℚ}
    {st' : Store} {s₁ : SessionData}
    (h : joinSession st sid uid now = .ok (st', s₁)) :
    sid ≠ "" ∧ uid ≠ "" ∧
    ∃ s₀, findById st sid = some s₀ ∧
      ((s₁ = { s₀ with
                 participants := jsSetDedup (s₀.participants ++ [uid]),
                 updatedAt := now } ∧
        st' = storeSet st sid s₁ ∧
        ¬(s₁.status = .WAITING ∧ s₁.participants.length > 1)) ∨
       (s₀.status = .WAITING ∧
        (jsSetDedup (s₀.participants ++ [uid])).length > 1 ∧
        s₁ = { s₀ with
                 participants := jsSetDedup (s₀.participants ++ [uid]),
                 status := .ACTIVE,
                 updatedAt := now } ∧
        st' = storeSet
          (storeSet st sid
            { s₀ with participants := jsSetDedup (s₀.participants ++ [uid]), updatedAt := now })
          sid s₁)) := by
  unfold joinSession at h
  split at h
  · cases h
  · rename_i hguard
    push_neg at hguard
    cases hf : findById st sid with
    | none => simp only [hf] at h; cases h
    | some s =>
        cases hA : addParticipant st sid uid now with
        | err e => simp only [hf, hA] at h; cases h
        | ok q =>
            obtain ⟨st₁, sM⟩ := q
            rcases addParticipant_ok hA with ⟨s₀, hf₀, hq⟩
            simp only [Prod.mk.injEq] at hq
            obtain ⟨hq1, hq2⟩ := hq
            have hs₀ : s₀ = s := by rw [hf₀] at hf; exact Option.some.inj hf
            subst hs₀
            subst hq1
            subst hq2
            simp only [hf, hA] at h
            refine ⟨hguard.1, hguard.2, s₀, rfl, ?_⟩
            split at h
            · rename_i hcond
              right
              rcases repoUpdate_ok h with ⟨sF, hfF, hp⟩
              rw [findById_storeSet] at hfF
              simp [hf] at hfF
              subst hfF
              simp only [Prod.mk.injEq] at hp
              obtain ⟨hst', hs₁⟩ := hp
              subst hst'
              subst hs₁
              exact ⟨hcond.1, hcond.2, rfl, rfl⟩
            · rename_i hcond
              simp only [Result.ok.injEq, Prod.mk.injEq] at h
              obtain ⟨hst', hs₁⟩ := h
              subst hst'
              subst hs₁
              exact Or.inl ⟨rfl, rfl, hcond⟩

theorem leaveSession_ok {st : Store} {sid uid : String} {now : ℚ}
    {st' : Store} {s₁ : SessionData}
    (h : leaveSession st sid uid now = .ok (st', s₁)) :
    sid ≠ "" ∧ uid ≠ "" ∧
    ∃ s₀, findById st sid = some s₀ ∧
      ((s₁ = { s₀ with
                 participants := s₀.participants.filter (fun q => q ≠ uid),
                 updatedAt := now } ∧
        st' = storeSet st sid s₁ ∧ s₁.participants.length ≠ 0) ∨
       ((s₀.participants.filter (fun q => q ≠ uid)).length = 0 ∧
        s₁ = { s₀ with
                 participants := s₀.participants.filter (fun q => q ≠ uid),
                 status := .ENDED,
                 updatedAt := now } ∧
        st' = storeSet
          (storeSet st sid
            { s₀ with participants := s₀.participants.filter (fun q => q ≠ uid), updatedAt := now })
          sid s₁)) := by
  unfold leaveSession at h
  split at h
  · cases h
  · rename_i hguard
    push_neg at hguard
    cases hR : removeParticipant st sid uid now with
    | err e => simp only [hR] at h; cases h
    | ok q =>
        obtain ⟨st₁, sM⟩ := q
        rcases removeParticipant_ok hR with ⟨s₀, hf₀, hq⟩
        simp only [Prod.mk.injEq] at hq
        obtain ⟨hq1, hq2⟩ := hq
        subst hq1
        subst hq2
        simp only [hR] at h
        refine ⟨hguard.1, hguard.2, s₀, hf₀, ?_⟩
        split at h
        · rename_i hcond
          right
          rcases repoUpdate_ok h with ⟨sF, hfF, hp⟩
          rw [findById_storeSet] at hfF
          simp [hf₀] at hfF
          subst hfF
          simp only [Prod.mk.injEq] at hp
          obtain ⟨hst', hs₁⟩ := hp
          subst hst'
          subst hs₁
          refine ⟨hcond, ?_, ?_⟩
          · simp [applyUpdate]
          · simp [applyUpdate]
        · rename_i hcond
          simp only [Result.ok.injEq, Prod.mk.injEq] at h
          obtain ⟨hst', hs₁⟩ := h
          subst hst'
          subst hs₁
          exact Or.inl ⟨rfl, rfl, hcond⟩

theorem setVideoUrl_ok {st : Store} {sid url : String} {now : ℚ}
    {st' : Store} {s₁ : SessionData}
    (h : setVideoUrl st sid url now = .ok (st', s₁)) :
    sid ≠ "" ∧ url ≠ "" ∧
    ∃ s₀, findById st sid = some s₀ ∧
      s₁ = { s₀ with
               videoUrl := rowUrlOrUndefined (jsTrim url),
               status := .ACTIVE,
               updatedAt := now } ∧
      st' = storeSet st sid s₁ := by
  unfold setVideoUrl at h
  split at h
  · cases h
  · rename_i hguard
    push_neg at hguard
    rcases repoUpdate_ok h with ⟨s₀, hf₀, hp⟩
    rw [applyUpdate_url_status] at hp
    simp only [Prod.mk.injEq] at hp
    exact ⟨hguard.1, hguard.2, s₀, hf₀, hp.2, by rw [hp.1, hp.2]⟩

theorem updateVideoState_ok {st : Store} {sid : String} {vs? : Option VideoState} {now : ℚ}
    {st' : Store} {s₁ : SessionData}
    (h : updateVideoState st sid vs? now = .ok (st', s₁)) :
    sid ≠ "" ∧
    ∃ vs s₀, vs? = some vs ∧ findById st sid = some s₀ ∧
      s₁ = { s₀ with videoState := some { vs with lastUpdated := now }, updatedAt := now } ∧
      st' = storeSet st sid s₁ := by
  unfold updateVideoState at h
  split at h
  · cases h
  · rename_i hguard
    cases vs? with
    | none => cases h
    | some vs =>
        rcases repoUpdate_ok h with ⟨s₀, hf₀, hp⟩
        rw [applyUpdate_vs] at hp
        simp only [Prod.mk.injEq] at hp
        exact ⟨hguard, vs, s₀, rfl, hf₀, hp.2, by rw [hp.1, hp.2]⟩

theorem endSession_ok {st : Store} {sid : String} {now : ℚ} {st' : Store} {b : Bool}
    (h : endSession st sid now = .ok (st', b)) :
    sid ≠ "" ∧
    ∃ s₀, findById st sid = some s₀ ∧
      st' = storeSet st sid { s₀ with status := .ENDED, updatedAt := now } := by
  unfold endSession at h
  split at h
  · cases h
  · rename_i hguard
    cases hU : repoUpdate st sid { status := some SessionStatus.ENDED } now with
    | err e => rw [hU] at h; cases h
    | ok q =>
        rw [hU] at h
        rcases repoUpdate_ok hU with ⟨s₀, hf₀, hq⟩
        subst hq
        simp only [Result.ok.injEq, Prod.mk.injEq] at h
        refine ⟨hguard, s₀, hf₀, ?_⟩
        rw [← h.1, applyUpdate_status]

theorem findById_storeSet_elim {st : Store} {id sid : String} {sNew s' : SessionData}
    (h : findById (storeSet st id sNew) sid = some s') :
    (id = sid ∧ s' = sNew) ∨ findById st sid = some s' := by
  rw [findById_storeSet] at h
  split at h
  · rename_i hc
    exact Or.inl ⟨hc.1, (Option.some.inj h).symm⟩
  · exact Or.inr h

/-- Across one Lifecycle Manager operation, a stored session never returns
to WAITING, and an ENDED session stays ENDED unless the operation is a
setVideoUrl targeting that very session. -/
theorem runOp_status_mono (st : Store) (op : Op) (sid : String) (s s' : SessionData)
    (hs : findById st sid = some s) (hs' : findById (runOp st op) sid = some s') :
    (s'.status = .WAITING → s.status = .WAITING) ∧
    (s.status = .ENDED → s'.status = .ENDED ∨ ∃ url now, op = Op.setUrl sid url now) := by
  have triv : s' = s →
      (s'.status = .WAITING → s.status = .WAITING) ∧
      (s.status = .ENDED → s'.status = .ENDED ∨ ∃ url now, op = Op.setUrl sid url now) := by
    rintro rfl
    exact ⟨fun h => h, fun h => Or.inl h⟩
  cases op with
  | create u nid now =>
      cases hC : createSession st u nid now with
      | err e =>
          simp only [runOp, hC] at hs'
          rw [hs] at hs'
          exact triv (Option.some.inj hs').symm
      | ok p =>
          obtain ⟨st₁, x⟩ := p
          rcases createSession_ok hC with ⟨-, hnone, hp⟩
          simp only [Prod.mk.injEq] at hp
          obtain ⟨hst₁, -⟩ := hp
          subst hst₁
          simp only [runOp, hC] at hs'
          by_cases hnid : nid = sid
          · rw [hnid] at hnone
            rw [hnone] at hs
            cases hs
          · simp only [findById, hnid, if_neg hnid] at hs'
            rw [hs] at hs'
            exact triv (Option.some.inj hs').symm
  | join sid₂ uid now =>
      cases hJ : joinSession st sid₂ uid now with
      | err e =>
          simp only [runOp, hJ] at hs'
          rw [hs] at hs'
          exact triv (Option.some.inj hs').symm
      | ok q =>
          obtain ⟨st₁, s₁⟩ := q
          simp only [runOp, hJ] at hs'
          rcases joinSession_ok hJ with ⟨-, -, s₀, hf₀, hbranch⟩
          rcases hbranch with ⟨hs₁, hst₁, hcond⟩ | ⟨hw, hlen, hs₁, hst₁⟩
          · subst hst₁
            rcases findById_storeSet_elim hs' with ⟨heq, hval⟩ | hfr
            · subst heq
              have hss : s₀ = s := by rw [hf₀] at hs; exact Option.some.inj hs
              subst hval
              subst hs₁
              constructor
              · intro h; rw [← hss]; exact h
              · intro h; rw [← hss] at h; exact Or.inl h
            · rw [hs] at hfr
              exact triv (Option.some.inj hfr).symm
          · subst hst₁
            rcases findById_storeSet_elim hs' with ⟨heq, hval⟩ | hfr
            · subst heq
              have hss : s₀ = s := by rw [hf₀] at hs; exact Option.some.inj hs
              subst hval
              subst hs₁
              constructor
              · intro h; simp at h
              · intro h
                rw [← hss] at h
                rw [hw] at h
                cases h
            · rcases findById_storeSet_elim hfr with ⟨heq, hval⟩ | hfr₂
              · subst heq
                have hss : s₀ = s := by rw [hf₀] at hs; exact Option.some.inj hs
                subst hval
                constructor
                · intro _; rw [← hss]; exact hw
                · intro h
                  rw [← hss] at h
                  rw [hw] at h
                  cases h
              · rw [hs] at hfr₂
                exact triv (Option.some.inj hfr₂).symm
  | leave sid₂ uid now =>
      cases hL : leaveSession st sid₂ uid now with
      | err e =>
          simp only [runOp, hL] at hs'
          rw [hs] at hs'
          exact triv (Option.some.inj hs').symm
      | ok q =>
          obtain ⟨st₁, s₁⟩ := q
          simp only [runOp, hL] at hs'
          rcases leaveSession_ok hL with ⟨-, -, s₀, hf₀, hbranch⟩
          rcases hbranch with ⟨hs₁, hst₁, hcond⟩ | ⟨hlen, hs₁, hst₁⟩
          · subst hst₁
            rcases findById_storeSet_elim hs' with ⟨heq, hval⟩ | hfr
            · subst heq
              have hss : s₀ = s := by rw [hf₀] at hs; exact Option.some.inj hs
              subst hval
              subst hs₁
              constructor
              · intro h; rw [← hss]; exact h
              · intro h; rw [← hss] at h; exact Or.inl h
            · rw [hs] at hfr
              exact triv (Option.some.inj hfr).symm
          · subst hst₁
            rcases findById_storeSet_elim hs' with ⟨heq, hval⟩ | hfr
            · subst heq
              subst hval
              subst hs₁
              constructor
              · intro h; simp at h
              · intro _; exact Or.inl rfl
            · rcases findById_storeSet_elim hfr with ⟨heq, hval⟩ | hfr₂
              · subst heq
                have hss : s₀ = s := by rw [hf₀] at hs; exact Option.some.inj hs
                subst hval
                constructor
                · intro h; rw [← hss]; exact h
                · intro h; rw [← hss] at h; exact Or.inl h
              · rw [hs] at hfr₂
                exact triv (Option.some.inj hfr₂).symm
  | getSess sid₂ =>
      simp only [runOp] at hs'
      rw [hs] at hs'
      exact triv (Option.some.inj hs').symm
  | setUrl sid₂ url now =>
      cases hU : setVideoUrl st sid₂ url now with
      | err e =>
          simp only [runOp, hU] at hs'
          rw [hs] at hs'
          exact triv (Option.some.inj hs').symm
      | ok q =>
          obtain ⟨st₁, s₁⟩ := q
          simp only [runOp, hU] at hs'
          rcases setVideoUrl_ok hU with ⟨-, -, s₀, hf₀, hs₁, hst₁⟩
          subst hst₁
          rcases findById_storeSet_elim hs' with ⟨heq, hval⟩ | hfr
          · subst heq
            subst hval
            subst hs₁
            constructor
            · intro h; simp at h
            · intro _; exact Or.inr ⟨url, now, rfl⟩
          · rw [hs] at hfr
            exact triv (Option.some.inj hfr).symm
  | updState sid₂ vs now =>
      cases hV : updateVideoState st sid₂ (some vs) now with
      | err e =>
          simp only [runOp, hV] at hs'
          rw [hs] at hs'
          exact triv (Option.some.inj hs').symm
      | ok q =>
          obtain ⟨st₁, s₁⟩ := q
          simp only [runOp, hV] at hs'
          rcases updateVideoState_ok hV with ⟨-, vs', s₀, -, hf₀, hs₁, hst₁⟩
          subst hst₁
          rcases findById_storeSet_elim hs' with ⟨heq, hval⟩ | hfr
          · subst heq
            have hss : s₀ = s := by rw [hf₀] at hs; exact Option.some.inj hs
            subst hval
            subst hs₁
            constructor
            · intro h; rw [← hss]; exact h
            · intro h; rw [← hss] at h; exact Or.inl h
          · rw [hs] at hfr
            exact triv (Option.some.inj hfr).symm
  | endSess sid₂ now =>
      cases hE : endSession st sid₂ now with
      | err e =>
          simp only [runOp, hE] at hs'
          rw [hs] at hs'
          exact triv (Option.some.inj hs').symm
      | ok q =>
          obtain ⟨st₁, b⟩ := q
          simp only [runOp, hE] at hs'
          rcases endSession_ok hE with ⟨-, s₀, hf₀, hst₁⟩
          subst hst₁
          rcases findById_storeSet_elim hs' with ⟨heq, hval⟩ | hfr
          · subst heq
            subst hval
            constructor
            · intro h; simp at h
            · intro _; exact Or.inl rfl
          · rw [hs] at hfr
            exact triv (Option.some.inj hfr).symm

theorem findById_storeSet2_elim {st : Store} {id sid : String} {s₀ a b s' : SessionData}
    (hid : findById st id = some s₀)
    (h : findById (storeSet (storeSet st id a) id b) sid = some s') :
    (id = sid ∧ s' = b) ∨ (id ≠ sid ∧ findById st sid = some s') := by
  rw [findById_storeSet, findById_storeSet] at h
  by_cases hc : id = sid
  · subst hc
    simp [hid] at h
    exact Or.inl ⟨rfl, h.symm⟩
  · simp [hc] at h
    rw [findById_storeSet] at h
    simp [hc] at h
    exact Or.inr ⟨hc, h⟩

/-- One Lifecycle Manager operation preserves the invariant that a WAITING
session has at most one participant. -/
theorem runOp_waiting_inv (st : Store) (op : Op)
    (hInv : ∀ sid s, findById st sid = some s →
      s.status = .WAITING → s.participants.length ≤ 1) :
    ∀ sid s', findById (runOp st op) sid = some s' →
      s'.status = .WAITING → s'.participants.length ≤ 1 := by
  intro sid s' hs' hw
  cases op with
  | create u nid now =>
      cases hC : createSession st u nid now with
      | err e =>
          simp only [runOp, hC] at hs'
          exact hInv sid s' hs' hw
      | ok p =>
          obtain ⟨st₁, x⟩ := p
          rcases createSession_ok hC with ⟨-, hnone, hp⟩
          simp only [Prod.mk.injEq] at hp
          obtain ⟨hst₁, -⟩ := hp
          subst hst₁
          simp only [runOp, hC] at hs'
          by_cases hnid : nid = sid
          · simp only [findById, hnid, if_pos rfl] at hs'
            rw [← Option.some.inj hs']
            simp
          · simp only [findById, hnid, if_neg hnid] at hs'
            exact hInv sid s' hs' hw
  | join sid₂ uid now =>
      cases hJ : joinSession st sid₂ uid now with
      | err e =>
          simp only [runOp, hJ] at hs'
          exact hInv sid s' hs' hw
      | ok q =>
          obtain ⟨st₁, s₁⟩ := q
          simp only [runOp, hJ] at hs'
          rcases joinSession_ok hJ with ⟨-, -, s₀, hf₀, hbranch⟩
          rcases hbranch with ⟨hs₁, hst₁, hcond⟩ | ⟨hwait, hlen, hs₁, hst₁⟩
          · subst hst₁
            rcases findById_storeSet_elim hs' with ⟨heq, hval⟩ | hfr
            · subst hval
              have hnot : ¬ (s'.participants.length > 1) := fun hgt => hcond ⟨hw, hgt⟩
              omega
            · exact hInv sid s' hfr hw
          · subst hst₁
            rcases findById_storeSet2_elim hf₀ hs' with ⟨heq, hval⟩ | ⟨hne, hfr⟩
            · subst hval
              subst hs₁
              simp at hw
            · exact hInv sid s' hfr hw
  | leave sid₂ uid now =>
      cases hL : leaveSession st sid₂ uid now with
      | err e =>
          simp only [runOp, hL] at hs'
          exact hInv sid s' hs' hw
      | ok q =>
          obtain ⟨st₁, s₁⟩ := q
          simp only [runOp, hL] at hs'
          rcases leaveSession_ok hL with ⟨-, -, s₀, hf₀, hbranch⟩
          rcases hbranch with ⟨hs₁, hst₁, hcond⟩ | ⟨hlen, hs₁, hst₁⟩
          · subst hst₁
            rcases findById_storeSet_elim hs' with ⟨heq, hval⟩ | hfr
            · subst hval
              subst hs₁
              have hw₀ : s₀.status = .WAITING := hw
              have hle := hInv sid₂ s₀ hf₀ hw₀
              have hfle := List.length_filter_le (fun q => q ≠ uid) s₀.participants
              simp only [List.length_cons]
              exact le_trans hfle hle
            · exact hInv sid s' hfr hw
          · subst hst₁
            rcases findById_storeSet2_elim hf₀ hs' with ⟨heq, hval⟩ | ⟨hne, hfr⟩
            · subst hval
              subst hs₁
              simp at hw
            · exact hInv sid s' hfr hw
  | getSess sid₂ =>
      simp only [runOp] at hs'
      exact hInv sid s' hs' hw
  | setUrl sid₂ url now =>
      cases hU : setVideoUrl st sid₂ url now with
      | err e =>
          simp only [runOp, hU] at hs'
          exact hInv sid s' hs' hw
      | ok q =>
          obtain ⟨st₁, s₁⟩ := q
          simp only [runOp, hU] at hs'
          rcases setVideoUrl_ok hU with ⟨-, -, s₀, hf₀, hs₁, hst₁⟩
          subst hst₁
          rcases findById_storeSet_elim hs' with ⟨heq, hval⟩ | hfr
          · subst hval
            subst hs₁
            simp at hw
          · exact hInv sid s' hfr hw
  | updState sid₂ vs now =>
      cases hV : updateVideoState st sid₂ (some vs) now with
      | err e =>
          simp only [runOp, hV] at hs'
          exact hInv sid s' hs' hw
      | ok q =>
          obtain ⟨st₁, s₁⟩ := q
          simp only [runOp, hV] at hs'
          rcases updateVideoState_ok hV with ⟨-, vs', s₀, -, hf₀, hs₁, hst₁⟩
          subst hst₁
          rcases findById_storeSet_elim hs' with ⟨heq, hval⟩ | hfr
          · subst hval
            subst hs₁
            exact hInv sid₂ s₀ hf₀ hw
          · exact hInv sid s' hfr hw
  | endSess sid₂ now =>
      cases hE : endSession st sid₂ now with
      | err e =>
          simp only [runOp, hE] at hs'
          exact hInv sid s' hs' hw
      | ok q =>
          obtain ⟨st₁, b⟩ := q
          simp only [runOp, hE] at hs'
          rcases endSession_ok hE with ⟨-, s₀, hf₀, hst₁⟩
          subst hst₁
          rcases findById_storeSet_elim hs' with ⟨heq, hval⟩ | hfr
          · subst hval
            simp at hw
          · exact hInv sid s' hfr hw

/-- Every reachable store satisfies the WAITING-participants invariant. -/
theorem reachable_waiting_inv {st : Store} (h : Reachable st) :
    ∀ sid s, findById st sid = some s →
      s.status = .WAITING → s.participants.length ≤ 1 := by
  induction h with
  | init => intro sid s hs; cases hs
  | step st₀ op hR ih => exact runOp_waiting_inv st₀ op ih

/-! Helper lemmas about the Synchronization Engine operations. -/

theorem getSession_ok {st : Store} {sid : String} {s : SessionData}
    (h : getSession st sid = .ok s) : sid ≠ "" ∧ findById st sid = some s := by
  unfold getSession at h
  split at h
  · cases h
  · rename_i hsid
    cases hf : findById st sid with
    | none => rw [hf] at h; cases h
    | some s₀ =>
        rw [hf] at h
        simp only [Result.ok.injEq] at h
        exact ⟨hsid, by rw [h]⟩

theorem getSession_of_find {st : Store} {sid : String} {s : SessionData}
    (hsid : sid ≠ "") (hf : findById st sid = some s) : getSession st sid = .ok s := by
  unfold getSession
  rw [if_neg hsid]
  simp [hf]

theorem updateVideoState_char {st : Store} {sid : String} {s : SessionData}
    (vs : VideoState) (now : ℚ) (hsid : sid ≠ "") (hf : findById st sid = some s) :
    updateVideoState st sid (some vs) now =
      .ok (storeSet st sid
             { s with videoState := some { vs with lastUpdated := now }, updatedAt := now },
           { s with videoState := some { vs with lastUpdated := now }, updatedAt := now }) := by
  unfold updateVideoState repoUpdate
  rw [if_neg hsid]
  simp only [hf, applyUpdate_vs]

theorem syncVideoState_char {st : Store} {sid : String} {s : SessionData}
    (vs : VideoState) (n1 n2 : ℚ) (hsid : sid ≠ "")
    (hf : findById st sid = some s) (hA : s.status = .ACTIVE)
    (hV : isValidVideoState vs = true) :
    syncVideoState st sid (some vs) n1 n2 =
      .ok (storeSet st sid
             { s with videoState := some { vs with lastUpdated := n2 }, updatedAt := n2 },
           true) := by
  have hG : getSession st sid = .ok s := getSession_of_find hsid hf
  have hU := updateVideoState_char { vs with lastUpdated := n1 } n2 hsid hf
  unfold syncVideoState
  rw [if_neg hsid]
  simp only [hG]
  rw [if_neg (by simp [hA])]
  rw [if_neg (fun hn => hn hV)]
  simp only [hU]

theorem syncVideoState_ok_inv {st : Store} {sid : String} {vs : VideoState}
    {n1 n2 : ℚ} {st₂ : Store} {b : Bool}
    (h : syncVideoState st sid (some vs) n1 n2 = .ok (st₂, b)) :
    sid ≠ "" ∧ ∃ s, findById st sid = some s ∧ s.status = .ACTIVE ∧
      isValidVideoState vs = true ∧ b = true ∧
      st₂ = storeSet st sid
        { s with videoState := some { vs with lastUpdated := n2 }, updatedAt := n2 } := by
  unfold syncVideoState at h
  split at h
  · cases h
  · rename_i hsid
    cases hG : getSession st sid with
    | err e => simp only [hG] at h; cases h
    | ok session =>
        simp only [hG] at h
        split at h
        · cases h
        · rename_i hstat
          split at h
          · cases h
          · rename_i hvalid
            cases hU : updateVideoState st sid (some { vs with lastUpdated := n1 }) n2 with
            | err e => simp only [hU] at h; cases h
            | ok q =>
                obtain ⟨st₃, s₃⟩ := q
                simp only [hU] at h
                simp only [Result.ok.injEq, Prod.mk.injEq] at h
                obtain ⟨h1, h2⟩ := h
                rcases getSession_ok hG with ⟨-, hf⟩
                have hAct : session.status = .ACTIVE := not_not.mp hstat
                have hVal : isValidVideoState vs = true := by
                  by_contra hc
                  exact hvalid fun hv => hc hv
                refine ⟨hsid, session, hf, hAct, hVal, h2.symm, ?_⟩
                have := updateVideoState_char { vs with lastUpdated := n1 } n2 hsid hf
                rw [this] at hU
                simp only [Result.ok.injEq, Prod.mk.injEq] at hU
                rw [← h1, hU.1]

theorem handleVideoEvent_ok {st : Store} {sid : String} {ev : VideoEvent} {uid : String}
    {n1 n2 : ℚ} {st' : Store} {v : VideoState}
    (h : handleVideoEvent st sid (some ev) uid n1 n2 = .ok (st', v)) :
    ∃ s, findById st sid = some s ∧ v = applyVideoEvent s.videoState ev ∧
      s.status = .ACTIVE ∧ isValidVideoState v = true ∧
      st' = storeSet st sid
        { s with videoState := some { v with lastUpdated := n2 }, updatedAt := n2 } := by
  unfold handleVideoEvent at h
  split at h
  · cases h
  · cases hG : getSession st sid with
    | err e => simp only [hG] at h; cases h
    | ok session =>
        simp only [hG] at h
        cases hS : syncVideoState st sid
            (some (applyVideoEvent session.videoState ev)) n1 n2 with
        | err e => simp only [hS] at h; cases h
        | ok q =>
            obtain ⟨st₂, b⟩ := q
            simp only [hS] at h
            simp only [Result.ok.injEq, Prod.mk.injEq] at h
            obtain ⟨hst, hv⟩ := h
            subst hst
            subst hv
            rcases syncVideoState_ok_inv hS with ⟨hsid, s, hf, hAct, hVal, -, hst₂⟩
            rcases getSession_ok hG with ⟨-, hf'⟩
            have hss : session = s := by
              rw [hf'] at hf
              exact Option.some.inj hf
            subst hss
            exact ⟨session, hf', rfl, hAct, hVal, hst₂⟩

theorem syncVideoState_ok_true {st : Store} {sid : String} {vs? : Option VideoState}
    {n1 n2 : ℚ} {p : Store × Bool} (h : syncVideoState st sid vs? n1 n2 = .ok p) :
    p.2 = true := by
  obtain ⟨st₂, b⟩ := p
  cases vs? with
  | none =>
      unfold syncVideoState at h
      split at h
      · cases h
      · cases h
  | some vs =>
      rcases syncVideoState_ok_inv h with ⟨-, -, -, -, -, hb, -⟩
      exact hb

theorem resolveConflict_ok {st : Store} {sid : String} {head : VideoState}
    {rest : List VideoState} {n1 n2 : ℚ} {st' : Store} {v : VideoState}
    (h : resolveConflict st sid (head :: rest) n1 n2 = .ok (st', v)) :
    v = mostRecent head rest ∧
    syncVideoState st sid (some (mostRecent head rest)) n1 n2 = .ok (st', true) := by
  unfold resolveConflict at h
  cases hS : syncVideoState st sid (some (mostRecent head rest)) n1 n2 with
  | err e => simp only [hS] at h; cases h
  | ok p =>
      obtain ⟨st₂, b⟩ := p
      have hb : b = true := syncVideoState_ok_true hS
      subst hb
      simp only [hS] at h
      simp only [Result.ok.injEq, Prod.mk.injEq] at h
      obtain ⟨h1, h2⟩ := h
      subst h1
      subst h2
      exact ⟨rfl, rfl⟩

/-! Claim theorems. -/

/-- C3: applyVideoEvent (the state computation of handleVideoEvent) follows
the event table over the prior state or the zeroed default: PLAY sets
currentTime and isPlaying true; PAUSE sets currentTime and isPlaying false;
SEEK sets currentTime leaving isPlaying unchanged; LOAD sets the url (or
leaves it unchanged when the event carries none or an empty one) with
currentTime 0 and isPlaying false; ENDED sets currentTime to the duration
with isPlaying false; every recognized branch stamps lastUpdated with the
event timestamp; an unrecognized type returns the prior state unchanged;
and LOAD with url u followed by PLAY at t = 5 yields url u, currentTime 5,
isPlaying true. -/
theorem claim_C3_event_table (cs : Option VideoState) (e : VideoEvent) :
    (e.type = "PLAY" → applyVideoEvent cs e =
      { cs.getD defaultVideoState with
          currentTime := e.data.currentTime, isPlaying := true,
          lastUpdated := e.timestamp }) ∧
    (e.type = "PAUSE" → applyVideoEvent cs e =
      { cs.getD defaultVideoState with
          currentTime := e.data.currentTime, isPlaying := false,
          lastUpdated := e.timestamp }) ∧
    (e.type = "SEEK" → applyVideoEvent cs e =
      { cs.getD defaultVideoState with
          currentTime := e.data.currentTime, lastUpdated := e.timestamp }) ∧
    (e.type = "LOAD" → applyVideoEvent cs e =
      { cs.getD defaultVideoState with
          url := jsOrString e.data.url (cs.getD defaultVideoState).url,
          currentTime := 0, isPlaying := false, lastUpdated := e.timestamp }) ∧
    (e.type = "ENDED" → applyVideoEvent cs e =
      { cs.getD defaultVideoState with
          currentTime := (cs.getD defaultVideoState).duration, isPlaying := false,
          lastUpdated := e.timestamp }) ∧
    (e.type ∉ (["PLAY", "PAUSE", "SEEK", "LOAD", "ENDED"] : List String) →
      applyVideoEvent cs e = cs.getD defaultVideoState) ∧
    (∀ (u : String) (e₁ e₂ : VideoEvent), u ≠ "" →
      e₁.type = "LOAD" → e₁.data.url = some u →
      e₂.type = "PLAY" → e₂.data.currentTime = 5 →
      (applyVideoEvent (some (applyVideoEvent cs e₁)) e₂).url = u ∧
      (applyVideoEvent (some (applyVideoEvent cs e₁)) e₂).currentTime = 5 ∧
      (applyVideoEvent (some (applyVideoEvent cs e₁)) e₂).isPlaying = true) := by
  refine ⟨?_, ?_, ?_, ?_, ?_, ?_, ?_⟩
  · intro h; simp [applyVideoEvent, h]
  · intro h; simp [applyVideoEvent, h]
  · intro h; simp [applyVideoEvent, h]
  · intro h; simp [applyVideoEvent, h]
  · intro h; simp [applyVideoEvent, h]
  · intro h
    simp only [List.mem_cons, List.mem_singleton, not_or] at h
    obtain ⟨h1, h2, h3, h4, h5, -⟩ := h
    simp [applyVideoEvent, h1, h2, h3, h4, h5]
  · intro u e₁ e₂ hu h₁ hurl h₂ hct
    have hload : applyVideoEvent cs e₁ =
        { cs.getD defaultVideoState with
            url := jsOrString e₁.data.url (cs.getD defaultVideoState).url,
            currentTime := 0, isPlaying := false, lastUpdated := e₁.timestamp } := by
      simp [applyVideoEvent, h₁]
    have hplay : ∀ base : VideoState, applyVideoEvent (some base) e₂ =
        { base with
            currentTime := e₂.data.currentTime,
            isPlaying := true,
            lastUpdated := e₂.timestamp } := by
      intro base; simp [applyVideoEvent, h₂]
    rw [hload, hplay]
    refine ⟨?_, hct, rfl⟩
    simp [jsOrString, hurl, hu]

/-- C4: validateVideoSync returns false on a url mismatch, returns false
when both durations are known non-zero and differ by more than 5 seconds,
and returns true whenever the urls match and the durations are within
tolerance — regardless of how far apart the currentTime values are. -/
theorem claim_C4_validate_video_sync (cur next : VideoState) :
    (cur.url ≠ next.url → validateVideoSync cur next = false) ∧
    (cur.url = next.url → cur.duration > 0 → next.duration > 0 →
      |next.duration - cur.duration| > 5 → validateVideoSync cur next = false) ∧
    (cur.url = next.url →
      ¬(cur.duration > 0 ∧ next.duration > 0 ∧ |next.duration - cur.duration| > 5) →
      validateVideoSync cur next = true) := by
  refine ⟨?_, ?_, ?_⟩
  · intro h
    simp [validateVideoSync, h]
  · intro hurl h1 h2 h3
    rw [validateVideoSync, if_neg (by simp [hurl]), if_pos ⟨h1, h2, h3⟩]
  · intro hurl hno
    rw [validateVideoSync, if_neg (by simp [hurl]), if_neg hno]

/-- Witness for C3: LOAD `http://u` then PLAY at 5 on the empty prior state
yields url `http://u`, currentTime 5, isPlaying true. -/
theorem claim_C3_event_table_witness :
    ("http://u" : String) ≠ "" ∧
    ((applyVideoEvent (some (applyVideoEvent none evLOAD)) evPLAY5).url = "http://u" ∧
     (applyVideoEvent (some (applyVideoEvent none evLOAD)) evPLAY5).currentTime = 5 ∧
     (applyVideoEvent (some (applyVideoEvent none evLOAD)) evPLAY5).isPlaying = true) :=
  ⟨by decide,
   (claim_C3_event_table none evPLAY5).2.2.2.2.2.2 "http://u" evLOAD evPLAY5
     (by decide) rfl rfl rfl rfl⟩

/-- Witness for C4: a url mismatch alone conflicts, a 50-second duration
mismatch conflicts, and a pure currentTime difference does not. -/
theorem claim_C4_validate_video_sync_witness :
    vsA.url ≠ vsB.url ∧
    (validateVideoSync vsA vsB = false ∧
     validateVideoSync vsA vs100 = false ∧
     validateVideoSync vs100 vs200 = true) :=
  ⟨by decide,
   (claim_C4_validate_video_sync vsA vsB).1 (by decide),
   (claim_C4_validate_video_sync vsA vs100).2.1 (by decide) (by norm_num [vsA])
     (by norm_num [vs100]) (by norm_num [vsA, vs100]),
   (claim_C4_validate_video_sync vs100 vs200).2.2 (by decide)
     (by norm_num [vs100, vs200])⟩

theorem reachable_stEnded : Reachable stEnded :=
  Reachable.step _ _ (Reachable.step _ _ Reachable.init)

theorem reachable_stEndedJoined : Reachable stEndedJoined :=
  Reachable.step _ _ (Reachable.step _ _ (Reachable.step _ _ (Reachable.step _ _ Reachable.init)))

theorem reachable_stActive : Reachable stActive :=
  Reachable.step _ _ (Reachable.step _ _ (Reachable.step _ _ (Reachable.step _ _ Reachable.init)))

/-- Counterexample for C1: the reachable store `stEnded` holds session "s1"
with status ENDED, yet a subsequent setVideoUrl succeeds and moves the
session back to ACTIVE — ENDED is not terminal under setVideoUrl. -/
theorem claim_C1_counterexample :
    Reachable stEnded ∧
    (findById stEnded "s1").map SessionData.status = some SessionStatus.ENDED ∧
    resultStatus (setVideoUrl stEnded "s1" "http://v" 3) = some SessionStatus.ACTIVE :=
  ⟨reachable_stEnded, by decide, by decide⟩

/-- C1 (amended): across every Lifecycle Manager operation on a reachable
store, a session never moves back to WAITING, and an ENDED session stays
ENDED unless the operation is a setVideoUrl targeting that session, which
forces it to ACTIVE. -/
theorem claim_C1_amended (st : Store) (op : Op) (sid : String) (s s' : SessionData)
    (_hR : Reachable st) (hs : findById st sid = some s)
    (hs' : findById (runOp st op) sid = some s') :
    (s.status = .ACTIVE → s'.status ≠ .WAITING) ∧
    (s.status = .ENDED → s'.status = .ENDED ∨ ∃ url now, op = Op.setUrl sid url now) := by
  have h := runOp_status_mono st op sid s s' hs hs'
  refine ⟨?_, h.2⟩
  intro hA hW
  have hback := h.1 hW
  rw [hA] at hback
  cases hback

/-- Witness for C1 (amended): endSession on the reachable ENDED session. -/
theorem claim_C1_amended_witness :
    (Reachable stEnded ∧ findById stEnded "s1" = some sEnded ∧
     findById (runOp stEnded (Op.endSess "s1" 5)) "s1" =
       some { sEnded with updatedAt := 5 }) ∧
    ((sEnded.status = .ACTIVE →
        ({ sEnded with updatedAt := 5 } : SessionData).status ≠ .WAITING) ∧
     (sEnded.status = .ENDED →
        ({ sEnded with updatedAt := 5 } : SessionData).status = .ENDED ∨
        ∃ url now, Op.endSess "s1" 5 = Op.setUrl "s1" url now)) :=
  ⟨⟨reachable_stEnded, by decide, by decide⟩,
   claim_C1_amended stEnded (Op.endSess "s1" 5) "s1" sEnded { sEnded with updatedAt := 5 }
     reachable_stEnded (by decide) (by decide)⟩

/-- Counterexample for C2: on the reachable store `stActive` (whose session
holds videoState on url `http://a`), setVideoUrl to `http://b` succeeds,
stores the new url, but leaves the old videoState in place, so afterwards
videoState.url = "http://a" differs from videoUrl = "http://b" — the
stale-state clearing the claim describes does not happen. -/
theorem claim_C2_counterexample :
    Reachable stActive ∧
    setVideoUrl stActive "s1" "http://b" 5 = .ok ([("s1", sB)], sB) ∧
    sB.videoUrl = some "http://b" ∧
    sB.videoState.map VideoState.url = some "http://a" ∧
    ("http://a" : String) ≠ "http://b" :=
  ⟨reachable_stActive, by decide, by decide, by decide, by decide⟩

/-- C2 (amended): a successful setVideoUrl stores the trimmed url — surfaced
through the repository's `row.video_url || undefined` mapping, so a url that
trims to the empty string materializes as no videoUrl — and forces status
ACTIVE, but does not touch the stored videoState: whatever videoState the
session had before the call is still there afterwards. -/
theorem claim_C2_amended (st : Store) (sid url : String) (now : ℚ)
    (st' : Store) (s' : SessionData)
    (h : setVideoUrl st sid url now = .ok (st', s')) :
    ∃ s₀, findById st sid = some s₀ ∧
      s'.videoUrl = rowUrlOrUndefined (jsTrim url) ∧ s'.status = .ACTIVE ∧
      s'.videoState = s₀.videoState ∧ findById st' sid = some s' := by
  rcases setVideoUrl_ok h with ⟨hsid, -, s₀, hf₀, hs₁, hst'⟩
  subst hst'
  refine ⟨s₀, hf₀, ?_, ?_, ?_, ?_⟩
  · rw [hs₁]
  · rw [hs₁]
  · rw [hs₁]
  · subst hs₁
    rw [findById_storeSet]
    simp [hf₀]

/-- Witness for C2 (amended): the concrete setVideoUrl call of the
counterexample run, and the whitespace-only url that materializes as no
videoUrl. -/
theorem claim_C2_amended_witness :
    (setVideoUrl stActive "s1" "http://b" 5 = .ok ([("s1", sB)], sB) ∧
     setVideoUrl stActive "s1" " " 5 = .ok ([("s1", sBlank)], sBlank)) ∧
    ((∃ s₀, findById stActive "s1" = some s₀ ∧
       sB.videoUrl = rowUrlOrUndefined (jsTrim "http://b") ∧ sB.status = .ACTIVE ∧
       sB.videoState = s₀.videoState ∧ findById [("s1", sB)] "s1" = some sB) ∧
     (∃ s₀, findById stActive "s1" = some s₀ ∧
       sBlank.videoUrl = rowUrlOrUndefined (jsTrim " ") ∧ sBlank.status = .ACTIVE ∧
       sBlank.videoState = s₀.videoState ∧
       findById [("s1", sBlank)] "s1" = some sBlank)) :=
  ⟨⟨by decide, by decide⟩,
   claim_C2_amended stActive "s1" "http://b" 5 [("s1", sB)] sB (by decide),
   claim_C2_amended stActive "s1" " " 5 [("s1", sBlank)] sBlank (by decide)⟩

/-- Counterexample for C7: in the reachable store `stEndedJoined` the
session has two participants but status ENDED, not ACTIVE (joins that land
on an ENDED session add participants without activating it). -/
theorem claim_C7_counterexample :
    Reachable stEndedJoined ∧
    (findById stEndedJoined "s1").map (fun s => s.participants.length) = some 2 ∧
    (findById stEndedJoined "s1").map SessionData.status = some SessionStatus.ENDED ∧
    (findById stEndedJoined "s1").map SessionData.status ≠ some SessionStatus.ACTIVE :=
  ⟨reachable_stEndedJoined, by decide, by decide, by decide⟩

/-- C7 (amended): in every reachable store, a session with at least two
participants is never WAITING (it is ACTIVE or ENDED), and an ACTIVE
session never reverts to WAITING under any further operation. -/
theorem claim_C7_amended (st : Store) (sid : String) (s : SessionData)
    (hR : Reachable st) (hs : findById st sid = some s) :
    (2 ≤ s.participants.length → s.status ≠ .WAITING) ∧
    (∀ (op : Op) (s' : SessionData), findById (runOp st op) sid = some s' →
      s.status = .ACTIVE → s'.status ≠ .WAITING) := by
  constructor
  · intro h2 hW
    have hle := reachable_waiting_inv hR sid s hs hW
    omega
  · intro op s' hs' hA hW
    have hback := (runOp_status_mono st op sid s s' hs hs').1 hW
    rw [hA] at hback
    cases hback

/-- Witness for C7 (amended): the reachable ACTIVE session with two
participants. -/
theorem claim_C7_amended_witness :
    (Reachable stActive ∧ findById stActive "s1" = some sActive ∧
     2 ≤ sActive.participants.length) ∧
    sActive.status ≠ SessionStatus.WAITING :=
  ⟨⟨reachable_stActive, by decide, by decide⟩,
   (claim_C7_amended stActive "s1" sActive reachable_stActive (by decide)).1 (by decide)⟩

/-- C8: a successful joinSession leaves the joining participant exactly once
in the participant list, never lets any participant appear twice, and a
repeated joinSession with the same id succeeds again and returns the
session with the same participant set and status. -/
theorem claim_C8_join_idempotent (st : Store) (sid uid : String) (now now' : ℚ)
    (st' : Store) (s₁ : SessionData)
    (h : joinSession st sid uid now = .ok (st', s₁)) :
    s₁.participants.count uid = 1 ∧
    (∀ p, s₁.participants.count p ≤ 1) ∧
    ∃ st'' s₂, joinSession st' sid uid now' = .ok (st'', s₂) ∧
      s₂.participants = s₁.participants ∧ s₂.status = s₁.status := by
  rcases joinSession_ok h with ⟨hsid, huid, s₀, hf₀, hbranch⟩
  have hparts : s₁.participants = jsSetDedup (s₀.participants ++ [uid]) := by
    rcases hbranch with ⟨hs₁, -, -⟩ | ⟨-, -, hs₁, -⟩ <;> rw [hs₁]
  have hnodup : s₁.participants.Nodup := by
    rw [hparts]; exact jsSetDedup_nodup _
  have hmem : uid ∈ s₁.participants := by
    rw [hparts]; exact mem_jsSetDedup.mpr (by simp)
  have hf₁ : findById st' sid = some s₁ := by
    rcases hbranch with ⟨-, hst', -⟩ | ⟨-, -, -, hst'⟩
    · subst hst'; rw [findById_storeSet]; simp [hf₀]
    · subst hst'; rw [findById_storeSet]; simp [findById_storeSet, hf₀]
  have hcond : ¬(s₁.status = .WAITING ∧ s₁.participants.length > 1) := by
    rcases hbranch with ⟨-, -, hc⟩ | ⟨-, -, hs₁, -⟩
    · exact hc
    · rintro ⟨hW, -⟩
      rw [hs₁] at hW
      simp at hW
  refine ⟨List.count_eq_one_of_mem hnodup hmem,
    fun p => List.nodup_iff_count_le_one.mp hnodup p, ?_⟩
  have hJs : jsSetDedup (s₁.participants ++ [uid]) = s₁.participants :=
    jsSetDedup_append_mem hnodup hmem
  have hAdd : addParticipant st' sid uid now' =
      .ok (storeSet st' sid { s₁ with updatedAt := now' },
           { s₁ with updatedAt := now' }) := by
    unfold addParticipant repoUpdate
    simp only [hf₁, hJs, applyUpdate_parts]
  refine ⟨storeSet st' sid { s₁ with updatedAt := now' },
    { s₁ with updatedAt := now' }, ?_, rfl, rfl⟩
  unfold joinSession
  rw [if_neg (by push_neg; exact ⟨hsid, huid⟩)]
  simp only [hf₁, hAdd]
  rw [if_neg hcond]

/-- Witness for C8: bob joining the active two-member session again. -/
theorem claim_C8_join_idempotent_witness :
    joinSession stActive "s1" "bob" 9 = .ok ([("s1", { sActive with updatedAt := 9 })],
      { sActive with updatedAt := 9 }) ∧
    ({ sActive with updatedAt := 9 } : SessionData).participants.count "bob" = 1 :=
  ⟨by decide,
   (claim_C8_join_idempotent stActive "s1" "bob" 9 11
     [("s1", { sActive with updatedAt := 9 })] { sActive with updatedAt := 9 }
     (by decide)).1⟩

/-- C5: resolveConflict rejects an empty candidate list with a
ValidationError; on success for any non-empty list the returned state is one
of the candidates, carries the greatest lastUpdated, and was persisted via
syncVideoState; a singleton list returns its state unchanged; and between
candidates timestamped 100 and 200 the 200 one wins. -/
theorem claim_C5_resolve_conflict (st : Store) (sid : String) (n1 n2 : ℚ) :
    (resolveConflict st sid [] n1 n2 =
      .err (.ValidationError "Conflicting states are required" "conflictingStates")) ∧
    (∀ (states : List VideoState) (st' : Store) (v : VideoState),
      resolveConflict st sid states n1 n2 = .ok (st', v) →
      v ∈ states ∧ (∀ w ∈ states, w.lastUpdated ≤ v.lastUpdated) ∧
      syncVideoState st sid (some v) n1 n2 = .ok (st', true)) ∧
    (∀ (s : VideoState) (st' : Store) (v : VideoState),
      resolveConflict st sid [s] n1 n2 = .ok (st', v) → v = s) ∧
    (∀ (s₁ s₂ : VideoState) (st' : Store) (v : VideoState),
      s₁.lastUpdated = 100 → s₂.lastUpdated = 200 →
      resolveConflict st sid [s₁, s₂] n1 n2 = .ok (st', v) → v = s₂) := by
  refine ⟨rfl, ?_, ?_, ?_⟩
  · intro states st' v h
    cases states with
    | nil => cases h
    | cons head rest =>
        rcases resolveConflict_ok h with ⟨hv, hsync⟩
        subst hv
        exact ⟨mostRecent_mem head rest, mostRecent_ge head rest, hsync⟩
  · intro s st' v h
    rcases resolveConflict_ok h with ⟨hv, -⟩
    exact hv
  · intro s₁ s₂ st' v h100 h200 h
    rcases resolveConflict_ok h with ⟨hv, -⟩
    rw [hv]
    show laterOf s₁ s₂ = s₂
    unfold laterOf
    rw [h100, h200]
    norm_num

/-- Witness for C5: the empty list fails; `[vs100, vs200]` on the active
store resolves to `vs200` and persists it. -/
theorem claim_C5_resolve_conflict_witness :
    (resolveConflict stActive "s1" ([] : List VideoState) 7 8 =
      .err (.ValidationError "Conflicting states are required" "conflictingStates")) ∧
    (resolveConflict stActive "s1" [vs100, vs200] 7 8 = .ok ([("s1", sRC)], vs200) ∧
     vs200 ∈ [vs100, vs200] ∧
     syncVideoState stActive "s1" (some vs200) 7 8 = .ok ([("s1", sRC)], true)) :=
  ⟨(claim_C5_resolve_conflict stActive "s1" 7 8).1,
   by decide,
   ((claim_C5_resolve_conflict stActive "s1" 7 8).2.1 [vs100, vs200]
     [("s1", sRC)] vs200 (by decide)).1,
   ((claim_C5_resolve_conflict stActive "s1" 7 8).2.1 [vs100, vs200]
     [("s1", sRC)] vs200 (by decide)).2.2⟩

/-- C6: syncVideoState fails with ValidationError when an argument is
missing (empty session id or absent state) or when the state fails the
shape checks; fails with SyncFailedError when the stored session is not
ACTIVE; and on success persists the state (restamped with the Lifecycle
Manager's clock) through updateVideoState. -/
theorem claim_C6_sync_video_state (st : Store) (sid : String) (vs : VideoState)
    (s : SessionData) (n1 n2 : ℚ) :
    (syncVideoState st "" (some vs) n1 n2 =
      .err (.ValidationError "Session ID is required" "sessionId")) ∧
    (sid ≠ "" → syncVideoState st sid none n1 n2 =
      .err (.ValidationError "Video state is required" "videoState")) ∧
    (sid ≠ "" → findById st sid = some s → s.status ≠ .ACTIVE →
      syncVideoState st sid (some vs) n1 n2 =
        .err (.SyncFailedError sid "Session is not active")) ∧
    (sid ≠ "" → findById st sid = some s → s.status = .ACTIVE →
      isValidVideoState vs = false →
      syncVideoState st sid (some vs) n1 n2 =
        .err (.ValidationError "Invalid video state" "videoState")) ∧
    ((vs.currentTime < 0 ∨ vs.duration < 0 ∨
        (0 < vs.duration ∧ vs.duration < vs.currentTime)) →
      isValidVideoState vs = false) ∧
    (sid ≠ "" → findById st sid = some s → s.status = .ACTIVE →
      isValidVideoState vs = true →
      syncVideoState st sid (some vs) n1 n2 =
        .ok (storeSet st sid
          { s with videoState := some { vs with lastUpdated := n2 }, updatedAt := n2 },
          true)) := by
  refine ⟨?_, ?_, ?_, ?_, ?_, ?_⟩
  · unfold syncVideoState
    rw [if_pos rfl]
  · intro hsid
    unfold syncVideoState
    rw [if_neg hsid]
  · intro hsid hf hstat
    have hG := getSession_of_find hsid hf
    unfold syncVideoState
    rw [if_neg hsid]
    simp only [hG]
    rw [if_pos hstat]
  · intro hsid hf hA hV
    have hG := getSession_of_find hsid hf
    unfold syncVideoState
    rw [if_neg hsid]
    simp only [hG]
    rw [if_neg (by simp [hA])]
    rw [if_pos (by simp [hV])]
  · intro h
    unfold isValidVideoState
    split_ifs with h1 h2 h3 h4
    · rfl
    · rfl
    · rfl
    · rfl
    · exfalso
      rcases h with h | h | h
      · exact h1 h
      · exact h2 h
      · exact h4 ⟨h.1, h.2⟩
  · intro hsid hf hA hV
    exact syncVideoState_char vs n1 n2 hsid hf hA hV

/-- Witness for C6: sync on the ENDED session fails with SyncFailedError;
sync of the valid state `vP` on the ACTIVE session persists it restamped. -/
theorem claim_C6_sync_video_state_witness :
    (findById stEnded "s1" = some sEnded ∧ sEnded.status ≠ SessionStatus.ACTIVE ∧
     findById stActive "s1" = some sActive ∧ sActive.status = SessionStatus.ACTIVE ∧
     isValidVideoState vP = true) ∧
    (syncVideoState stEnded "s1" (some vP) 1 2 =
       .err (.SyncFailedError "s1" "Session is not active") ∧
     syncVideoState stActive "s1" (some vP) 61 62 =
       .ok (storeSet stActive "s1"
         { sActive with videoState := some { vP with lastUpdated := 62 }, updatedAt := 62 },
         true)) :=
  ⟨⟨by decide, by decide, by decide, by decide, by decide⟩,
   (claim_C6_sync_video_state stEnded "s1" vP sEnded 1 2).2.2.1
     (by decide) (by decide) (by decide),
   (claim_C6_sync_video_state stActive "s1" vP sActive 61 62).2.2.2.2.2
     (by decide) (by decide) (by decide) (by decide)⟩

/-- C10: on every successful handleVideoEvent for a recognized event type,
the returned state carries lastUpdated = event.timestamp, but the state the
store now holds was restamped with the server clock at persistence time, so
whenever server time differs from the event timestamp the stored and
returned lastUpdated values differ. -/
theorem claim_C10_restamping (st : Store) (sid : String) (ev : VideoEvent) (uid : String)
    (n1 n2 : ℚ) (st' : Store) (v : VideoState)
    (ht : ev.type = "PLAY" ∨ ev.type = "PAUSE" ∨ ev.type = "SEEK" ∨
          ev.type = "LOAD" ∨ ev.type = "ENDED")
    (h : handleVideoEvent st sid (some ev) uid n1 n2 = .ok (st', v)) :
    v.lastUpdated = ev.timestamp ∧
    ∃ s', findById st' sid = some s' ∧
      s'.videoState = some { v with lastUpdated := n2 } ∧
      s'.videoState.map VideoState.lastUpdated = some n2 ∧
      (n2 ≠ ev.timestamp →
        s'.videoState.map VideoState.lastUpdated ≠ some v.lastUpdated) := by
  rcases handleVideoEvent_ok h with ⟨s, hf, hv, hA, hVal, hst'⟩
  have hlast : v.lastUpdated = ev.timestamp := by
    subst hv
    unfold applyVideoEvent
    rcases ht with h1 | h1 | h1 | h1 | h1 <;> simp [h1]
  refine ⟨hlast,
    { s with videoState := some { v with lastUpdated := n2 }, updatedAt := n2 },
    ?_, rfl, rfl, ?_⟩
  · subst hst'
    rw [findById_storeSet]
    simp [hf]
  · intro hne hc
    apply hne
    have h2 : n2 = v.lastUpdated := by simpa using hc
    rw [hlast] at h2
    exact h2

/-- Witness for C10: the PLAY event timestamped 50, synced at server time
62, returns lastUpdated 50 but stores lastUpdated 62. -/
theorem claim_C10_restamping_witness :
    (handleVideoEvent stActive "s1" (some evPLAY5) "bob" 61 62 = .ok ([("s1", sP)], vP) ∧
     evPLAY5.type = "PLAY") ∧
    (vP.lastUpdated = evPLAY5.timestamp ∧
     ∃ s', findById [("s1", sP)] "s1" = some s' ∧
       s'.videoState = some { vP with lastUpdated := 62 } ∧
       s'.videoState.map VideoState.lastUpdated = some 62 ∧
       ((62 : ℚ) ≠ evPLAY5.timestamp →
         s'.videoState.map VideoState.lastUpdated ≠ some vP.lastUpdated)) :=
  ⟨⟨by decide, rfl⟩,
   claim_C10_restamping stActive "s1" evPLAY5 "bob" 61 62 [("s1", sP)] vP
     (Or.inl rfl) (by decide)⟩

/-- Counterexample for C9: B (sockB) sends an ENDED event reporting
currentTime 0 while the canonical state the engine produces has currentTime
100 (the stored duration); the Hub broadcasts the inbound event payload —
currentTime 0 — to sockA, not the canonical VideoState. -/
theorem claim_C9_counterexample :
    (hubHandleVideoEvent stActive ["sockA", "sockB"] "sockB" (some ("s1", "bob"))
        cexClientEvent 60 61 62 63).2 =
      [("sockA", OutMessage.videoSync { cexClientEvent with timestamp := some 63 })] ∧
    handleVideoEvent stActive "s1"
        (some (transformEvent "s1" "bob" cexClientEvent 60)) "bob" 61 62 =
      .ok ([("s1", sC9)], vC9) ∧
    ({ cexClientEvent with timestamp := some 63 } : ClientVideoEvent).currentTime = some 0 ∧
    vC9.currentTime = 100 ∧
    (some (0 : ℚ) : Option ℚ) ≠ some vC9.currentTime :=
  ⟨by decide, by decide, by decide, by decide, by decide⟩

/-- C9 (amended): for an inbound video-event from a connection registered in
a room, on engine success the Hub broadcasts a video-sync message to every
other room member and never to the originator; the payload is the inbound
client event restamped with the server clock, not the canonical VideoState
returned by handleVideoEvent. -/
theorem claim_C9_amended (st : Store) (room : List String) (sock : String)
    (sid uid : String) (ev : ClientVideoEvent) (nowT n1 n2 nowB : ℚ)
    (st₂ : Store) (v : VideoState)
    (hsid : sid ≠ "") (huid : uid ≠ "")
    (h : handleVideoEvent st sid (some (transformEvent sid uid ev nowT)) uid n1 n2 =
      .ok (st₂, v)) :
    hubHandleVideoEvent st room sock (some (sid, uid)) ev nowT n1 n2 nowB =
      (st₂, (room.filter (fun r => r ≠ sock)).map
        (fun r => (r, OutMessage.videoSync { ev with timestamp := some nowB }))) ∧
    (∀ m ∈ (room.filter (fun r => r ≠ sock)).map
        (fun r => (r, OutMessage.videoSync { ev with timestamp := some nowB })),
      m.1 ≠ sock) ∧
    (∀ r ∈ room, r ≠ sock →
      (r, OutMessage.videoSync { ev with timestamp := some nowB }) ∈
        (room.filter (fun r => r ≠ sock)).map
          (fun r => (r, OutMessage.videoSync { ev with timestamp := some nowB }))) := by
  have hguard : ¬(sid = "" ∨ uid = "") := by push_neg; exact ⟨hsid, huid⟩
  refine ⟨?_, ?_, ?_⟩
  · unfold hubHandleVideoEvent
    simp only [if_neg hguard, h]
  · intro m hm
    rcases List.mem_map.mp hm with ⟨r, hr, rfl⟩
    have hprop := List.of_mem_filter hr
    simpa using hprop
  · intro r hr hne
    exact List.mem_map.mpr ⟨r, List.mem_filter.mpr ⟨hr, by simpa using hne⟩, rfl⟩

/-- Witness for C9 (amended): the concrete two-socket room scenario. -/
theorem claim_C9_amended_witness :
    (handleVideoEvent stActive "s1"
        (some (transformEvent "s1" "bob" cexClientEvent 60)) "bob" 61 62 =
      .ok ([("s1", sC9)], vC9)) ∧
    hubHandleVideoEvent stActive ["sockA", "sockB"] "sockB" (some ("s1", "bob"))
        cexClientEvent 60 61 62 63 =
      ([("s1", sC9)], (["sockA", "sockB"].filter (fun r => r ≠ "sockB")).map
        (fun r => (r, OutMessage.videoSync { cexClientEvent with timestamp := some 63 }))) :=
  ⟨by decide,
   (claim_C9_amended stActive ["sockA", "sockB"] "sockB" "s1" "bob" cexClientEvent
     60 61 62 63 [("s1", sC9)] vC9 (by decide) (by decide) (by decide)).1⟩

end SyncWatch
